import Mathlib

set_option maxRecDepth 16000

/-!
Verification of the Jonas-Chorum-Room-Audit analytics pipeline.

This file gives a shallow embedding, in Lean 4, of the analytics code in
`room.py` (housekeeping report, room-usage report, rotation scoring and the
rotation-callout view) and of `anonymize_name` in `Cleanup.py`, and proves or
refutes the stated properties of the design document against it.

Conventions of the embedding:
* a missing cell of a CSV table (pandas `NaN`) is `Option.none`; a present cell
  is `some s` with `s` the raw string;
* machine floats of the source are modelled as exact rationals (`ℚ`); pandas
  `round` (numpy round-half-to-even) is modelled by `roundTo`;
* a fallible computation returns `Option`/`Except`; a raised Python exception
  is `Option.none` / `Except.error`;
* pandas dataframes are lists of typed rows; `groupby(sort=True)` enumerates
  the distinct keys in ascending order, which is modelled by sorting the
  deduplicated key list with insertion sort.
-/

/-! ### Python string primitives -/

/-- Characters the Python `str.strip()` / `\s` class treats as whitespace
(ASCII part, which is all the source data uses). -/
def pyIsSpace (c : Char) : Bool :=
  c == ' ' || c == '\t' || c == '\n' || c == '\r' || c == '\x0b' || c == '\x0c'

/-- Drop trailing whitespace, as the right half of Python `str.strip()`. -/
def dropTrailingWs (cs : List Char) : List Char :=
  (cs.reverse.dropWhile pyIsSpace).reverse

/-- Python `str.strip()` on the character list of a string. -/
def pyStripL (cs : List Char) : List Char :=
  dropTrailingWs (cs.dropWhile pyIsSpace)

/-- Python `str.strip()`. -/
def pyStrip (s : String) : String :=
  String.mk (pyStripL s.toList)

/-- Python `s.split(sep)` for a one-character separator: splits at every
occurrence, keeping empty fragments, and yields `[[]]` on the empty string. -/
def splitOnChar (sep : Char) : List Char → List (List Char)
  | [] => [[]]
  | c :: rest =>
    if c = sep then [] :: splitOnChar sep rest
    else
      match splitOnChar sep rest with
      | [] => [[c]]
      | p :: ps => (c :: p) :: ps

/-- Worker for `collapseWs`: the flag records whether the scan is inside a
whitespace run whose single replacement space was already emitted. -/
def collapseWsAux : Bool → List Char → List Char
  | _, [] => []
  | inRun, c :: rest =>
    if pyIsSpace c then
      if inRun then collapseWsAux true rest
      else ' ' :: collapseWsAux true rest
    else c :: collapseWsAux false rest

/-- Python `re.sub(r"\s+", " ", s)`: every maximal run of whitespace becomes a
single space. -/
def collapseWs (cs : List Char) : List Char :=
  collapseWsAux false cs

/-- The helper `safe_str` of `room.py` (lines 13-16): `NaN` becomes `""`,
anything else is stringified and stripped. -/
def safe_str : Option String → String
  | none => ""
  | some s => pyStrip s

/-! ### Date parsing (`coerce_datetime`, room.py lines 18-23) -/

/-- The date part of a parsed timestamp (the `Day` column of the pipeline). -/
structure Day where
  year : Nat
  month : Nat
  day : Nat
deriving DecidableEq

/-- Value of a list of decimal digit characters. -/
def digitsToNat (cs : List Char) : Nat :=
  cs.foldl (fun a c => a * 10 + (c.toNat - '0'.toNat)) 0

/-- Parse a digit group of between `minLen` and `maxLen` digits, as the
`strptime` field patterns do. -/
def parseNatRange (cs : List Char) (minLen maxLen : Nat) : Option Nat :=
  if minLen ≤ cs.length ∧ cs.length ≤ maxLen ∧ cs.all Char.isDigit then
    some (digitsToNat cs)
  else none

def isLeapYear (y : Nat) : Bool :=
  y % 4 == 0 && (y % 100 != 0 || y % 400 == 0)

def daysInMonth (y m : Nat) : Nat :=
  if m = 2 then (if isLeapYear y then 29 else 28)
  else if m = 4 ∨ m = 6 ∨ m = 9 ∨ m = 11 then 30
  else 31

/-- Strict parse of the primary format `"%m/%d/%Y %H:%M"`: month and day of
1-2 digits, a 4-digit year, hour and minute of 1-2 digits, with calendar
validation, exactly as `datetime.strptime` accepts.  Only the date portion is
retained (the pipeline then takes `.dt.date`). -/
def parse_mdY_HM (s : String) : Option Day :=
  match splitOnChar ' ' s.toList with
  | [datePart, timePart] =>
    match splitOnChar '/' datePart, splitOnChar ':' timePart with
    | [ms, ds, ys], [hs, mins] => do
      let m ← parseNatRange ms 1 2
      let d ← parseNatRange ds 1 2
      let y ← parseNatRange ys 4 4
      let h ← parseNatRange hs 1 2
      let mi ← parseNatRange mins 1 2
      if 1 ≤ m ∧ m ≤ 12 ∧ 1 ≤ d ∧ d ≤ daysInMonth y m ∧ h ≤ 23 ∧ mi ≤ 59 then
        some ⟨y, m, d⟩
      else none
    | _, _ => none
  | _ => none

/-- `coerce_datetime` of `room.py` (lines 18-23): `pd.to_datetime` with the
single fixed format `"%m/%d/%Y %H:%M"` and `errors="coerce"` — a value that
does not match the format becomes `NaT` (`none`); no other format is tried. -/
def coerce_datetime (s : String) : Option Day :=
  parse_mdY_HM s

/-- Modelled from the spec: the "free-form fallback parse" (spec §4.2/§6) that
the design requires after the primary format fails.  No such fallback exists in
`room.py`; this definition captures the minimal content of "general
best-effort parsing": it also accepts the unambiguous ISO form
`YYYY-MM-DD HH:MM`, which pandas' default parser accepts. -/
def best_effort_parse (s : String) : Option Day :=
  (parse_mdY_HM s).orElse fun _ =>
    match splitOnChar ' ' s.toList with
    | [datePart, timePart] =>
      match splitOnChar '-' datePart, splitOnChar ':' timePart with
      | [ys, ms, ds], [hs, mins] => do
        let y ← parseNatRange ys 4 4
        let m ← parseNatRange ms 1 2
        let d ← parseNatRange ds 1 2
        let h ← parseNatRange hs 1 2
        let mi ← parseNatRange mins 1 2
        if 1 ≤ m ∧ m ≤ 12 ∧ 1 ≤ d ∧ d ≤ daysInMonth y m ∧ h ≤ 23 ∧ mi ≤ 59 then
          some ⟨y, m, d⟩
        else none
      | _, _ => none
    | _ => none

/-! ### Numeric coercion (`pd.to_numeric(..., errors="coerce")`) -/

/-- Parse a decimal numeral with optional sign and optional fractional part
(`-3`, `+2.5`, `3.`, `.5`), after stripping surrounding whitespace, as
`pd.to_numeric` does on such strings.  (Scientific notation is not modelled;
no input of this development uses it.)  Failure is `none`. -/
def parsePyNumber (s : String) : Option ℚ :=
  match pyStripL s.toList with
  | [] => none
  | c0 :: cs0 =>
    let sgn : ℚ := if c0 = '-' then -1 else 1
    let rest : List Char := if c0 = '-' ∨ c0 = '+' then cs0 else c0 :: cs0
    let intPart := rest.takeWhile (fun c => c != '.')
    let dotPart := rest.dropWhile (fun c => c != '.')
    match dotPart with
    | [] =>
      if intPart ≠ [] ∧ intPart.all Char.isDigit then
        some (sgn * (digitsToNat intPart : ℚ))
      else none
    | _ :: frac =>
      if intPart.all Char.isDigit ∧ frac.all Char.isDigit ∧ (intPart ≠ [] ∨ frac ≠ []) then
        some (sgn * ((digitsToNat intPart : ℚ) +
          (digitsToNat frac : ℚ) / (10 : ℚ) ^ frac.length))
      else none

/-! ### Rounding (pandas `.round`, numpy round-half-to-even) -/

/-- Floor of a rational, computed by floor division of numerator by
denominator. -/
def ratFloor (q : ℚ) : ℤ :=
  Int.fdiv q.num (q.den : ℤ)

/-- Round to the nearest integer, ties to even (the numpy / pandas rounding
rule used by `.round(n)`). -/
def roundHalfEven (q : ℚ) : ℤ :=
  let n : ℤ := ratFloor q
  let frac : ℚ := q - (n : ℚ)
  if frac < 1/2 then n
  else if (1 : ℚ)/2 < frac then n + 1
  else if n % 2 = 0 then n else n + 1

/-- `x.round(digits)` of pandas, on exact rationals. -/
def roundTo (digits : ℕ) (q : ℚ) : ℚ :=
  ((roundHalfEven (q * (10 : ℚ) ^ digits) : ℤ) : ℚ) / (10 : ℚ) ^ digits

/-! ### Housekeeping data model (`build_housekeeping_section`, room.py 108-382) -/

/-- A raw row of the Housekeeping Change Log CSV: all nine required columns as
optional strings (a missing cell is `none`). -/
structure RawHKRow where
  roomNumber : Option String
  roomType : Option String
  fdStatus : Option String
  hskBefore : Option String
  hskAfter : Option String
  hkBefore : Option String
  hkAfter : Option String
  username : Option String
  date : Option String
deriving DecidableEq

/-- A raw housekeeping table: the column set of the CSV header plus its rows. -/
structure RawHKTable where
  cols : List String
  rows : List RawHKRow

/-- `required_cols` of `build_housekeeping_section` (room.py 109-119). -/
def hk_required_cols : List String :=
  ["Room Number", "Room Type", "FD Status", "HSK Status Before", "HSK Status After",
   "Housekeeper Before", "Housekeeper After", "Username", "Date"]

/-- `missing = [c for c in required_cols if c not in df.columns]`
(room.py 120). -/
def hk_missing_cols (t : RawHKTable) : List String :=
  hk_required_cols.filter (fun c => decide (c ∉ t.cols))

/-- A normalized housekeeping row with its derived facts (room.py 124-131):
every required column pushed through `safe_str`, the parsed `Day`,
`HSK_Changed` and `HSK_Transition`. -/
structure HKFactRow where
  roomNumber : String
  roomType : String
  fdStatus : String
  hskBefore : String
  hskAfter : String
  hkBefore : String
  hkAfter : String
  username : String
  date : String
  day : Option Day
  changed : Bool
  transition : String
deriving DecidableEq

/-- Normalization and fact derivation for one row (room.py 124-131). -/
def normalizeHKRow (r : RawHKRow) : HKFactRow :=
  let b := safe_str r.hskBefore
  let a := safe_str r.hskAfter
  { roomNumber := safe_str r.roomNumber
    roomType := safe_str r.roomType
    fdStatus := safe_str r.fdStatus
    hskBefore := b
    hskAfter := a
    hkBefore := safe_str r.hkBefore
    hkAfter := safe_str r.hkAfter
    username := safe_str r.username
    date := safe_str r.date
    day := coerce_datetime (safe_str r.date)
    changed := b != a
    transition := b ++ " → " ++ a }

/-! ### Aggregation views (room.py 150-204) -/

/-- Ascending sort of string keys, as `groupby(sort=True)` enumerates its
groups. -/
def sortStr (l : List String) : List String :=
  List.insertionSort (fun a b : String => a ≤ b) l

/-- One row of a housekeeping `AggregateGroup` view. -/
structure AggGroup where
  key : String
  rows : ℕ
  unique_rooms : ℕ
  changed : ℕ
  change_rate : ℚ
deriving DecidableEq

/-- The group of facts sharing one key. -/
def groupOf (keyOf : HKFactRow → String) (facts : List HKFactRow) (k : String) :
    List HKFactRow :=
  facts.filter (fun r => decide (keyOf r = k))

/-- The aggregate record of one group: `rows` (size), `unique_rooms`
(nunique of Room Number), `changed` (sum of `HSK_Changed`) and
`change_rate = (changed / rows).round(4)` (room.py 150-204). -/
def mkAggGroup (keyOf : HKFactRow → String) (facts : List HKFactRow) (k : String) :
    AggGroup :=
  let grp := groupOf keyOf facts k
  { key := k
    rows := grp.length
    unique_rooms := ((grp.map (·.roomNumber)).dedup).length
    changed := grp.countP (·.changed)
    change_rate := roundTo 4 ((grp.countP (·.changed) : ℚ) / (grp.length : ℚ)) }

/-- The distinct keys of a grouping, ascending. -/
def aggKeys (keyOf : HKFactRow → String) (facts : List HKFactRow) : List String :=
  sortStr ((facts.map keyOf).dedup)

/-- Grouping over one string dimension. -/
def aggBy (keyOf : HKFactRow → String) (facts : List HKFactRow) : List AggGroup :=
  (aggKeys keyOf facts).map (mkAggGroup keyOf facts)

/-- `.sort_values(["changed", "rows"], ascending=[False, False])`. -/
def sortByChangedRows (gs : List AggGroup) : List AggGroup :=
  List.insertionSort
    (fun a b => b.changed < a.changed ∨ (a.changed = b.changed ∧ b.rows ≤ a.rows)) gs

/-- `.sort_values(["rows", "changed"], ascending=[False, False])`. -/
def sortByRowsChanged (gs : List AggGroup) : List AggGroup :=
  List.insertionSort
    (fun a b => b.rows < a.rows ∨ (a.rows = b.rows ∧ b.changed ≤ a.changed)) gs

/-- `by_room_type` view (room.py 164-176). -/
def by_room_type_view (facts : List HKFactRow) : List AggGroup :=
  sortByChangedRows (aggBy (·.roomType) facts)

/-- `by_hk_after` view (room.py 178-190). -/
def by_hk_after_view (facts : List HKFactRow) : List AggGroup :=
  sortByChangedRows (aggBy (·.hkAfter) facts)

/-- `by_user` view (room.py 192-204). -/
def by_user_view (facts : List HKFactRow) : List AggGroup :=
  sortByRowsChanged (aggBy (·.username) facts)

/-- One row of the `by_day` view. -/
structure DayGroup where
  day : Day
  rows : ℕ
  unique_rooms : ℕ
  changed : ℕ
  change_rate : ℚ
deriving DecidableEq

/-- Chronological key of a calendar day. -/
def dayKey (d : Day) : ℕ :=
  d.year * 10000 + d.month * 100 + d.day

/-- `by_day` view (room.py 149-162): built only when at least one `Day`
parsed (`df["Day"].notna().any()`); `groupby("Day", dropna=True)` groups the
rows with a parsed day by that day, ascending. -/
def by_day_view (facts : List HKFactRow) : Option (List DayGroup) :=
  let days := facts.filterMap (·.day)
  if days = [] then none
  else some
    ((List.insertionSort (fun a b => dayKey a ≤ dayKey b) days.dedup).map fun d =>
      let grp := facts.filter (fun r => decide (r.day = some d))
      { day := d
        rows := grp.length
        unique_rooms := ((grp.map (·.roomNumber)).dedup).length
        changed := grp.countP (·.changed)
        change_rate := roundTo 4 ((grp.countP (·.changed) : ℚ) / (grp.length : ℚ)) })

/-! ### Transition matrix (room.py 206-217) -/

/-- The transition cross-tabulation: row labels are the observed
`HSK Status Before` values, column labels the observed `HSK Status After`
values (both ascending, as `pivot_table` sorts its group keys and
`.sort_index()` sorts the rows), and a cell counts the rows with that
(Before, After) pair; `fill_value=0` makes unobserved combinations 0. -/
structure TransitionMatrix where
  rowLabels : List String
  colLabels : List String
  cell : String → String → ℕ

def transition_matrix (facts : List HKFactRow) : TransitionMatrix :=
  { rowLabels := sortStr ((facts.map (·.hskBefore)).dedup)
    colLabels := sortStr ((facts.map (·.hskAfter)).dedup)
    cell := fun b a => facts.countP (fun r => decide (r.hskBefore = b ∧ r.hskAfter = a)) }

/-- The dense rendered table: one row per row label, holding the zero-filled
cell counts in column-label order. -/
def transition_table (facts : List HKFactRow) : List (String × List ℕ) :=
  let tm := transition_matrix facts
  tm.rowLabels.map fun b => (b, tm.colLabels.map fun a => tm.cell b a)

/-! ### Overall housekeeping KPIs (room.py 133-147) -/

structure HKKpis where
  total_rows : ℕ
  unique_rooms : ℕ
  changed_count : ℕ
  change_rate : ℚ
  date_parse_success : ℚ
deriving DecidableEq

/-- The `overall` KPI record (room.py 133-147): change rate and the
date-parse success rate (fraction of rows whose `DateTime` parsed), both
rounded to 4 decimals, and 0.0 for an empty table. -/
def hk_kpis (facts : List HKFactRow) : HKKpis :=
  { total_rows := facts.length
    unique_rooms := ((facts.map (·.roomNumber)).dedup).length
    changed_count := facts.countP (·.changed)
    change_rate :=
      if facts.length = 0 then 0
      else roundTo 4 ((facts.countP (·.changed) : ℚ) / (facts.length : ℚ))
    date_parse_success :=
      if facts.length = 0 then 0
      else roundTo 4 ((facts.countP (fun r => r.day.isSome) : ℚ) / (facts.length : ℚ)) }

/-! ### Rotation scorer (room.py 326-359) -/

/-- One row of `uniqueness_by_user` / `username_room_rotation_uniqueness.csv`.
These are exactly the fields the code computes; the section dict of
`build_housekeeping_section` does NOT store this table (no
`"uniqueness_by_user"` key is ever set). -/
structure RotationRecord where
  username : String
  total_actions : ℕ
  unique_rooms : ℕ
  status_changes : ℕ
  room_uniqueness_rate : ℚ
  rotation_quality : String
deriving DecidableEq

/-- `classify_rotation` (room.py 340-348), applied to the already-rounded
rate. -/
def classify_rotation (x : ℚ) : String :=
  if x < 20/100 then "Very Low (likely not rotating)"
  else if x < 40/100 then "Low"
  else if x < 60/100 then "Moderate"
  else "High (good rotation)"

/-- The rotation record of one username (room.py 326-350):
`total_actions` = group size, `unique_rooms` = distinct room numbers,
`status_changes` = sum of `HSK_Changed`,
`room_uniqueness_rate = (unique_rooms / total_actions).round(3)`,
`rotation_quality = classify_rotation(room_uniqueness_rate)`. -/
def mkRotationRecord (facts : List HKFactRow) (u : String) : RotationRecord :=
  let grp := facts.filter (fun r => decide (r.username = u))
  let rate := roundTo 3 ((((grp.map (·.roomNumber)).dedup).length : ℚ) / (grp.length : ℚ))
  { username := u
    total_actions := grp.length
    unique_rooms := ((grp.map (·.roomNumber)).dedup).length
    status_changes := grp.countP (·.changed)
    room_uniqueness_rate := rate
    rotation_quality := classify_rotation rate }

/-- `.sort_values(["room_uniqueness_rate", "total_actions"],
ascending=[True, False])` (room.py 353-356 and 717-720). -/
def sortRotation (rs : List RotationRecord) : List RotationRecord :=
  List.insertionSort
    (fun a b => a.room_uniqueness_rate < b.room_uniqueness_rate ∨
      (a.room_uniqueness_rate = b.room_uniqueness_rate ∧ b.total_actions ≤ a.total_actions)) rs

/-- The `uniqueness_by_user` table (room.py 326-356), one record per distinct
username, presentation-sorted worst rotation first. -/
def uniqueness_by_user (facts : List HKFactRow) : List RotationRecord :=
  sortRotation ((sortStr ((facts.map (·.username)).dedup)).map (mkRotationRecord facts))

/-- The column set of `username_room_rotation_uniqueness.csv` (room.py
326-359): the groupby aggregation columns plus the two assigned columns.  No
`room_randomness` or `room_randomness_rank` column exists anywhere in the
code. -/
def rotation_csv_columns : List String :=
  ["Username", "total_actions", "unique_rooms", "status_changes",
   "room_uniqueness_rate", "rotation_quality"]

/-! ### The housekeeping section payload (room.py 312-321, 379) -/

/-- The section dict returned by `build_housekeeping_section`.  The chart
file list and executive notes are rendering artifacts outside the analytics
embedding; `uniqueness_chart` is kept because `rotation_callouts` reads it. -/
structure HKSection where
  kpis : HKKpis
  by_day : Option (List DayGroup)
  by_room_type : List AggGroup
  by_hk_after : List AggGroup
  by_user : List AggGroup
  transition : List (String × List ℕ)
  uniqueness_chart : String × String

/-- The keys the section dict actually holds (room.py 312-321 plus the
`uniqueness_chart` assignment at 379).  Note `"uniqueness_by_user"` is not
among them. -/
def hk_section_keys : List String :=
  ["kpis", "by_day", "by_room_type", "by_hk_after", "by_user",
   "transition_matrix", "charts", "exec_notes", "uniqueness_chart"]

/-- `build_housekeeping_section` (room.py 108-382): schema validation first
(raising `ValueError` with the full missing-column list, room.py 120-122),
then row normalization, fact derivation and all aggregate views. -/
def build_housekeeping_section (t : RawHKTable) : Except (List String) HKSection :=
  let missing := hk_missing_cols t
  if missing = [] then
    let facts := t.rows.map normalizeHKRow
    Except.ok
      { kpis := hk_kpis facts
        by_day := by_day_view facts
        by_room_type := by_room_type_view facts
        by_hk_after := by_hk_after_view facts
        by_user := by_user_view facts
        transition := transition_table facts
        uniqueness_chart :=
          ("username_room_rotation_scatter.png",
           "Room rotation efficiency (lower = repeatedly working same rooms)") }
  else Except.error missing

/-! ### Room-usage section (`build_room_usage_section`, room.py 388-515) -/

/-- A raw row of the Room Usage CSV. -/
structure RawUsageRow where
  roomNumber : Option String
  roomType : Option String
  nights : Option String
  features : Option String
deriving DecidableEq

structure RawUsageTable where
  cols : List String
  rows : List RawUsageRow

/-- `required_cols` of `build_room_usage_section` (room.py 389). -/
def usage_required_cols : List String :=
  ["Room Number", "Room Type", "Number of Nights", "Orientation/Features"]

/-- `missing = [c for c in required_cols if c not in df.columns]`
(room.py 390). -/
def usage_missing_cols (t : RawUsageTable) : List String :=
  usage_required_cols.filter (fun c => decide (c ∉ t.cols))

/-- `pd.to_numeric(df["Number of Nights"], errors="coerce").fillna(0)`
(room.py 397): a missing cell or a value that fails to parse becomes 0; a
parsed value — including a negative one — is kept as-is. -/
def coerce_nights (x : Option String) : ℚ :=
  match x with
  | none => 0
  | some s => (parsePyNumber s).getD 0

/-- A normalized room-usage row (room.py 394-397). -/
structure UsageRow where
  roomNumber : String
  roomType : String
  nights : ℚ
  features : String
deriving DecidableEq

def normalizeUsageRow (r : RawUsageRow) : UsageRow :=
  { roomNumber := safe_str r.roomNumber
    roomType := safe_str r.roomType
    nights := coerce_nights r.nights
    features := safe_str r.features }

/-- One row of the room-usage `by_room_type` view (room.py 410-421):
`rooms` = nunique of Room Number, `total_nights` = sum,
`avg_nights_per_room` = the MEAN of `Number of Nights` over the group's rows
(`.agg(... "mean")`), rounded to 2 decimals. -/
structure UsageGroup where
  roomType : String
  rooms : ℕ
  total_nights : ℚ
  avg_nights_per_room : ℚ
deriving DecidableEq

def usage_by_room_type (rowsU : List UsageRow) : List UsageGroup :=
  let keys := sortStr ((rowsU.map (·.roomType)).dedup)
  let gs := keys.map fun k =>
    let grp := rowsU.filter (fun r => decide (r.roomType = k))
    { roomType := k
      rooms := ((grp.map (·.roomNumber)).dedup).length
      total_nights := (grp.map (·.nights)).sum
      avg_nights_per_room := roundTo 2 ((grp.map (·.nights)).sum / (grp.length : ℚ)) }
  List.insertionSort
    (fun a b => b.total_nights < a.total_nights ∨
      (a.total_nights = b.total_nights ∧ b.rooms ≤ a.rooms)) gs

/-- The room-usage section payload: the overall KPIs (room.py 399-407) and the
`by_room_type` view.  (Top-rooms and feature rollups are not touched by any
verified property.) -/
structure UsageSection where
  unique_rooms : ℕ
  total_nights : ℚ
  avg_nights : ℚ
  by_room_type : List UsageGroup

/-- `build_room_usage_section` (room.py 388-515): schema validation first
(room.py 389-392), then coercion and aggregation. -/
def build_room_usage_section (t : RawUsageTable) : Except (List String) UsageSection :=
  let missing := usage_missing_cols t
  if missing = [] then
    let rowsU := t.rows.map normalizeUsageRow
    let totalRooms := ((rowsU.map (·.roomNumber)).dedup).length
    let totalNights := (rowsU.map (·.nights)).sum
    Except.ok
      { unique_rooms := totalRooms
        total_nights := totalNights
        avg_nights := if totalRooms = 0 then 0
          else roundTo 2 (totalNights / (totalRooms : ℚ))
        by_room_type := usage_by_room_type rowsU }
  else Except.error missing

/-! ### Rotation callouts (`rotation_callouts`, room.py 709-777)

The source function is broken: after filtering and sorting `flagged` it
reassigns `uni_df = housekeeping.get("uniqueness_by_user")` — a key the
section dict never holds, so `uni_df` becomes `None` — recursively calls
itself on that `None`, and returns a grid holding the recursive result as its
callouts card.  Everything from `worst = flagged.head(8)` (room.py 750)
onwards sits after that unconditional `return` and is unreachable. -/

/-- `housekeeping.get("uniqueness_by_user")` (room.py 721): the dict built by
`build_housekeeping_section` has keys `hk_section_keys` only, so the lookup
yields `None`. -/
def get_uniqueness_by_user (_s : HKSection) : Option (List RotationRecord) :=
  none

/-- The HTML fragments `rotation_callouts` can return, keeping only the
usernames they mention: the two `muted` no-data messages, a callout item list,
and the grid of chart card, callouts card and rotation-table card (room.py
735-747); the table card's username list is derived from the (reassigned)
`uni_df`. -/
inductive CalloutHtml where
  | noData : CalloutHtml
  | noUsersMet : CalloutHtml
  | userItems : List String → CalloutHtml
  | grid : String → CalloutHtml → List String → CalloutHtml
deriving DecidableEq

/-- Usernames listed in the callouts card of a fragment (the table card of a
grid is the separate "Rotation table (all users)" card, not a callout). -/
def calloutUsernames : CalloutHtml → List String
  | CalloutHtml.noData => []
  | CalloutHtml.noUsersMet => []
  | CalloutHtml.userItems us => us
  | CalloutHtml.grid _ inner _ => calloutUsernames inner

/-- All usernames a fragment mentions anywhere (callouts card and table card). -/
def allUsernames : CalloutHtml → List String
  | CalloutHtml.noData => []
  | CalloutHtml.noUsersMet => []
  | CalloutHtml.userItems us => us
  | CalloutHtml.grid _ inner tbl => allUsernames inner ++ tbl

/-- `rotation_callouts` (room.py 709-749), with a fuel argument standing for
recursion depth (the Python function is self-recursive); `none` would mean the
fuel ran out, which never happens because the recursive call's argument is the
`None` produced by `get_uniqueness_by_user`.  The filtered and sorted
`flagged` table is computed but — like in the source — never used by any
reachable code. -/
def rotation_callouts_fuel : ℕ → HKSection → Option (List RotationRecord) → Option CalloutHtml
  | _, _, none => some CalloutHtml.noData
  | _, _, some [] => some CalloutHtml.noData
  | 0, _, some (_ :: _) => none
  | (fuel + 1), hk, some (r0 :: rest) =>
    let flagged := sortRotation ((r0 :: rest).filter (fun r => decide (10 ≤ r.total_actions)))
    let uniReassigned := get_uniqueness_by_user hk
    let chart := hk.uniqueness_chart.1
    match rotation_callouts_fuel fuel hk uniReassigned with
    | none => none
    | some inner =>
      let tableUsers : List String :=
        match uniReassigned with
        | none => []
        | some rs => rs.map (·.username)
      let _deadStore := flagged
      some (CalloutHtml.grid chart inner tableUsers)

/-- `rotation_callouts(uni_df)` as called with the section in scope. -/
def rotation_callouts (hk : HKSection) (uni : Option (List RotationRecord)) :
    Option CalloutHtml :=
  rotation_callouts_fuel 2 hk uni

/-- The computation of the unreachable block of `rotation_callouts` (room.py
713-720 and 750-777), which is also what spec §4.4 prescribes for the callout
view: keep users with `total_actions >= 10`, sort ascending by uniqueness rate
then descending by volume, take the worst 8. -/
def callout_worst8 (rs : List RotationRecord) : List RotationRecord :=
  (sortRotation (rs.filter (fun r => decide (10 ≤ r.total_actions)))).take 8

/-! ### `anonymize_name` (Cleanup.py 5-22) -/

/-- The final formatting step of `anonymize_name` (Cleanup.py 19-22):
`parts = s.split(" ")`; a single token is returned as-is, otherwise
`f"{parts[0]} {parts[-1][0].upper()}."` — which raises `IndexError`
(modelled `none`) when the last token is empty. -/
def anonFinish (s2 : List Char) : Option String :=
  match splitOnChar ' ' s2 with
  | [] => none
  | [single] => some (String.mk single)
  | p :: q :: qs =>
    match (q :: qs).getLast? with
    | some [] => none
    | some (c :: _) => some (String.mk (p ++ [' ', c.toUpper, '.']))
    | none => none

/-- The body of `anonymize_name` for a present string cell (Cleanup.py 8-22):
strip; empty becomes `""`; collapse whitespace runs; on a comma with
non-blank content after it, swap to "First Last" order; format the result. -/
def anonymize_core (str0 : String) : Option String :=
  if pyStripL str0.toList = [] then some ""
  else if (collapseWs (pyStripL str0.toList)).contains ',' then
    if pyStripL (((collapseWs (pyStripL str0.toList)).dropWhile (fun c => c != ',')).tail) ≠ [] then
      anonFinish
        (pyStripL (((collapseWs (pyStripL str0.toList)).dropWhile (fun c => c != ',')).tail) ++
          ' ' :: pyStripL ((collapseWs (pyStripL str0.toList)).takeWhile (fun c => c != ',')))
    else anonFinish (collapseWs (pyStripL str0.toList))
  else anonFinish (collapseWs (pyStripL str0.toList))

/-- `anonymize_name` (Cleanup.py 5-22).  Input `none` models a `NaN` cell;
output `none` models a raised exception. -/
def anonymize_name (x : Option String) : Option String :=
  match x with
  | none => some ""
  | some str0 => anonymize_core str0

/-- The exact condition under which `anonymize_name` raises: the stripped,
whitespace-collapsed input contains a comma whose first occurrence has only
blank content before it and non-blank content after it (then
`s = parts[1] + " " + parts[0]` ends in a space, so `parts[-1]` of the final
split is the empty string and `parts[-1][0]` raises `IndexError`). -/
def anonFailCond (s : String) : Prop :=
  let s1 := collapseWs (pyStripL s.toList)
  s1.contains ',' = true ∧
    pyStripL ((s1.dropWhile (fun c => c != ',')).tail) ≠ [] ∧
    pyStripL (s1.takeWhile (fun c => c != ',')) = []

instance (s : String) : Decidable (anonFailCond s) := by
  unfold anonFailCond
  exact inferInstance

/-! ### Concrete test fixtures -/

/-- A raw housekeeping row whose three categorical fields (Housekeeper
Before/After, Username) are missing or whitespace-only. -/
def exBlankRawRow : RawHKRow :=
  ⟨some "101", some "King", some "OCC", some "Dirty", some "Clean",
   none, some "   ", some "", some "01/02/2024 03:04"⟩

/-- A raw row with a well-formed primary-format date. -/
def exRawRow1 : RawHKRow :=
  ⟨some "101", some "King", some "OCC", some "Dirty", some "Clean",
   some "Ana", some "Bea", some "alice", some "01/02/2024 03:04"⟩

/-- A raw row whose date matches no format at all. -/
def exRawRow2 : RawHKRow :=
  ⟨some "102", some "King", some "OCC", some "Clean", some "Dirty",
   some "Ana", some "Bea", some "alice", some "notadate"⟩

/-- A raw row carrying an ISO-format date, which the primary format rejects
but a best-effort parse accepts. -/
def exIsoDateRow : RawHKRow :=
  ⟨some "103", some "King", some "OCC", some "Dirty", some "Clean",
   some "Ana", some "Bea", some "bob", some "2024-01-02 03:04"⟩

def exMixedRawRows : List RawHKRow :=
  [exRawRow1, exRawRow2]

/-- Two fact rows by the same user, one with a parsed day and one without. -/
def exMixedFacts : List HKFactRow :=
  exMixedRawRows.map normalizeHKRow

/-- A housekeeping table with the full required header. -/
def exGoodHKTable : RawHKTable :=
  ⟨hk_required_cols, exMixedRawRows⟩

/-- A housekeeping table missing eight of the nine required columns. -/
def exBadHKTable : RawHKTable :=
  ⟨["Room Number"], []⟩

/-- A room-usage table with no columns at all. -/
def exBadUsageTable : RawUsageTable :=
  ⟨[], []⟩

/-- Three Suite rows over two distinct rooms: room A is used twice, so the
row mean (5/3) differs from total-nights over distinct rooms (5/2). -/
def exUsageRows : List UsageRow :=
  [⟨"A", "Suite", 2, ""⟩, ⟨"A", "Suite", 1, ""⟩, ⟨"B", "Suite", 2, ""⟩]

/-- A rotation table with one high-volume user (12 actions, very low
uniqueness) and one low-volume user. -/
def exRotationTable : List RotationRecord :=
  [⟨"alice", 12, 2, 5, 167/1000, "Very Low (likely not rotating)"⟩,
   ⟨"bob", 3, 3, 1, 1, "High (good rotation)"⟩]

/-- A section payload as `build_housekeeping_section` produces (in particular
with no `uniqueness_by_user` entry). -/
def exSection : HKSection :=
  { kpis := ⟨0, 0, 0, 0, 0⟩
    by_day := none
    by_room_type := []
    by_hk_after := []
    by_user := []
    transition := []
    uniqueness_chart :=
      ("username_room_rotation_scatter.png",
       "Room rotation efficiency (lower = repeatedly working same rooms)") }

/-- A missing or whitespace-only cell (what the spec calls a "missing/blank"
categorical field). -/
def Blank (x : Option String) : Prop :=
  x = none ∨ pyStripL ((x.getD "").toList) = []

instance (x : Option String) : Decidable (Blank x) := by
  unfold Blank
  exact inferInstance

/-! ## Theorems -/

/-! ### Counting helpers -/

theorem countP_add_countP_not {α : Type} (p : α → Bool) (xs : List α) :
    xs.countP p + xs.countP (fun x => !p x) = xs.length := by
  induction xs with
  | nil => rfl
  | cons a as iha =>
    by_cases h : p a <;> simp [List.countP_cons, h] <;> omega

/-- Summing, over a duplicate-free list of keys covering every element's key,
the number of elements carrying each key gives back the total number of
elements: grouping by key is a partition. -/
theorem sum_countP_of_nodup_keys {α κ : Type} [DecidableEq κ] (key : α → κ) :
    ∀ (keys : List κ), keys.Nodup → ∀ (xs : List α), (∀ x ∈ xs, key x ∈ keys) →
      ((keys.map fun k => xs.countP fun x => decide (key x = k)).sum) = xs.length := by
  intro keys
  induction keys with
  | nil =>
    intro _ xs hc
    cases xs with
    | nil => simp
    | cons y ys => exact absurd (hc y (by simp)) (by simp)
  | cons k ks ih =>
    intro hnd xs hc
    have hk : k ∉ ks := (List.nodup_cons.mp hnd).1
    have hndks : ks.Nodup := (List.nodup_cons.mp hnd).2
    have hmapeq : ks.map (fun j => xs.countP fun x => decide (key x = j)) =
        ks.map (fun j => (xs.filter fun x => !decide (key x = k)).countP
          fun x => decide (key x = j)) := by
      apply List.map_congr_left
      intro j hj
      rw [List.countP_filter]
      apply List.countP_congr
      intro x _
      simp only [Bool.and_eq_true, decide_eq_true_eq, Bool.not_eq_true',
        decide_eq_false_iff_not]
      constructor
      · intro hxj
        refine ⟨hxj, fun hxk => hk ?_⟩
        have hjk : j = k := hxj.symm.trans hxk
        exact hjk ▸ hj
      · intro hx
        exact hx.1
    have hrestkeys : ∀ x ∈ xs.filter (fun x => !decide (key x = k)), key x ∈ ks := by
      intro x hx
      have hxs := List.mem_filter.mp hx
      have hxk : key x ≠ k := by simpa using hxs.2
      rcases List.mem_cons.mp (hc x hxs.1) with h | h
      · exact absurd h hxk
      · exact h
    have hsum := ih hndks (xs.filter fun x => !decide (key x = k)) hrestkeys
    have hsplit := countP_add_countP_not (fun x => decide (key x = k)) xs
    rw [List.countP_eq_length_filter (fun x => !decide (key x = k))] at hsplit
    simp only [List.map_cons, List.sum_cons]
    rw [hmapeq, hsum]
    omega

/-- The `rows` counters of one string-keyed grouping sum to the table size. -/
theorem sum_rows_aggBy (keyOf : HKFactRow → String) (facts : List HKFactRow) :
    ((aggBy keyOf facts).map (fun g => g.rows)).sum = facts.length := by
  unfold aggBy aggKeys sortStr
  rw [List.map_map]
  have hperm : List.Perm
      ((List.insertionSort (fun a b : String => a ≤ b) ((facts.map keyOf).dedup)).map
        ((fun g : AggGroup => g.rows) ∘ mkAggGroup keyOf facts))
      (((facts.map keyOf).dedup).map ((fun g : AggGroup => g.rows) ∘ mkAggGroup keyOf facts)) :=
    (List.perm_insertionSort _ _).map _
  rw [hperm.sum_eq]
  have hfun : ((facts.map keyOf).dedup).map ((fun g : AggGroup => g.rows) ∘ mkAggGroup keyOf facts) =
      ((facts.map keyOf).dedup).map (fun k => facts.countP fun x => decide (keyOf x = k)) := by
    apply List.map_congr_left
    intro k _
    simp [mkAggGroup, groupOf, List.countP_eq_length_filter]
  rw [hfun]
  exact sum_countP_of_nodup_keys keyOf _ (List.nodup_dedup _) facts
    (fun x hx => List.mem_dedup.mpr (List.mem_map_of_mem keyOf hx))

/-- Value-sorting a view does not change the sum of its `rows` counters. -/
theorem sum_rows_insertionSort (r : AggGroup → AggGroup → Prop) [DecidableRel r]
    (gs : List AggGroup) :
    ((List.insertionSort r gs).map (fun g => g.rows)).sum = (gs.map (fun g => g.rows)).sum :=
  ((List.perm_insertionSort r gs).map _).sum_eq

/-- The `by_day` view partitions exactly the rows whose date parsed. -/
theorem sum_rows_by_day (facts : List HKFactRow) (v : List DayGroup)
    (h : by_day_view facts = some v) :
    (v.map (fun g => g.rows)).sum = (facts.filter (fun r => r.day.isSome)).length := by
  simp only [by_day_view] at h
  by_cases hd : facts.filterMap (fun r => r.day) = []
  · rw [if_pos hd] at h
    cases h
  · rw [if_neg hd] at h
    have hv := (Option.some_injective _ h).symm
    subst hv
    rw [List.map_map]
    have hperm : List.Perm
        ((List.insertionSort (fun a b => dayKey a ≤ dayKey b)
          ((facts.filterMap (fun r => r.day)).dedup)).map
            ((fun g : DayGroup => g.rows) ∘ fun d =>
              { day := d
                rows := (facts.filter (fun r => decide (r.day = some d))).length
                unique_rooms :=
                  (((facts.filter (fun r => decide (r.day = some d))).map (·.roomNumber)).dedup).length
                changed := (facts.filter (fun r => decide (r.day = some d))).countP (·.changed)
                change_rate := roundTo 4
                  (((facts.filter (fun r => decide (r.day = some d))).countP (·.changed) : ℚ) /
                    ((facts.filter (fun r => decide (r.day = some d))).length : ℚ)) }))
        (((facts.filterMap (fun r => r.day)).dedup).map
            ((fun g : DayGroup => g.rows) ∘ fun d =>
              { day := d
                rows := (facts.filter (fun r => decide (r.day = some d))).length
                unique_rooms :=
                  (((facts.filter (fun r => decide (r.day = some d))).map (·.roomNumber)).dedup).length
                changed := (facts.filter (fun r => decide (r.day = some d))).countP (·.changed)
                change_rate := roundTo 4
                  (((facts.filter (fun r => decide (r.day = some d))).countP (·.changed) : ℚ) /
                    ((facts.filter (fun r => decide (r.day = some d))).length : ℚ)) })) :=
      (List.perm_insertionSort _ _).map _
  
    rw [hperm.sum_eq]
    have hfun : (((facts.filterMap (fun r => r.day)).dedup).map
        ((fun g : DayGroup => g.rows) ∘ fun d =>
          { day := d
            rows := (facts.filter (fun r => decide (r.day = some d))).length
            unique_rooms :=
              (((facts.filter (fun r => decide (r.day = some d))).map (·.roomNumber)).dedup).length
            changed := (facts.filter (fun r => decide (r.day = some d))).countP (·.changed)
            change_rate := roundTo 4
              (((facts.filter (fun r => decide (r.day = some d))).countP (·.changed) : ℚ) /
                ((facts.filter (fun r => decide (r.day = some d))).length : ℚ)) })) =
        ((facts.filterMap (fun r => r.day)).dedup).map
          (fun d => (facts.filter (fun r => r.day.isSome)).countP
            fun x => decide (x.day = some d)) := by
      apply List.map_congr_left
      intro d _
      simp only [Function.comp]
      rw [← List.countP_eq_length_filter, List.countP_filter]
      apply List.countP_congr
      intro x _
      by_cases hx : x.day = some d
      · simp [hx]
      · simp [hx]
    rw [hfun]
    have hkeys := sum_countP_of_nodup_keys (fun r : HKFactRow => r.day)
      (((facts.filterMap (fun r => r.day)).dedup).map some)
      (List.Nodup.map (Option.some_injective Day) (List.nodup_dedup _))
      (facts.filter (fun r => r.day.isSome))
      (by
        intro x hx
        have hmem := List.mem_filter.mp hx
        rcases Option.isSome_iff_exists.mp hmem.2 with ⟨d, hdx⟩
        show x.day ∈ _
        rw [hdx]
        exact List.mem_map_of_mem some
          (List.mem_dedup.mpr (List.mem_filterMap.mpr ⟨x, hmem.1, hdx⟩)))
    rw [List.map_map] at hkeys
    exact hkeys

/-- C4 (amended): the three string-keyed housekeeping views (by room type, by
closing housekeeper, by username) are partitions of the fact table — their
per-group `rows` counters sum to the total row count — while the by-day view
partitions only the rows whose Date parsed (`groupby("Day", dropna=True)`
drops the rest), so its row sum equals the count of date-parsed rows. -/
theorem agg_views_partition (facts : List HKFactRow) :
    ((by_room_type_view facts).map (fun g => g.rows)).sum = facts.length ∧
    ((by_hk_after_view facts).map (fun g => g.rows)).sum = facts.length ∧
    ((by_user_view facts).map (fun g => g.rows)).sum = facts.length ∧
    ∀ v, by_day_view facts = some v →
      (v.map (fun g => g.rows)).sum = (facts.filter (fun r => r.day.isSome)).length := by
  refine ⟨?_, ?_, ?_, fun v hv => sum_rows_by_day facts v hv⟩
  · unfold by_room_type_view sortByChangedRows
    rw [sum_rows_insertionSort]
    exact sum_rows_aggBy _ facts
  · unfold by_hk_after_view sortByChangedRows
    rw [sum_rows_insertionSort]
    exact sum_rows_aggBy _ facts
  · unfold by_user_view sortByRowsChanged
    rw [sum_rows_insertionSort]
    exact sum_rows_aggBy _ facts

/-- C4 counterexample: on a two-row table whose second row has an unparsable
date, the by-day view's row counters sum to 1, not to the table size 2 — the
by-day grouping is not a partition of the fact table. -/
theorem by_day_view_drops_unparsed_rows :
    by_day_view exMixedFacts = some [⟨⟨2024, 1, 2⟩, 1, 1, 1, 1⟩] ∧
    (([⟨⟨2024, 1, 2⟩, 1, 1, 1, 1⟩] : List DayGroup).map (fun g => g.rows)).sum = 1 ∧
    exMixedFacts.length = 2 ∧ (1 : ℕ) ≠ 2 := by
  refine ⟨by with_unfolding_all decide, by decide, by with_unfolding_all decide, by decide⟩

/-- Witness for `agg_views_partition` at a concrete two-row table. -/
theorem agg_views_partition_witness :
    ((by_user_view exMixedFacts).map (fun g => g.rows)).sum = exMixedFacts.length ∧
    (([⟨⟨2024, 1, 2⟩, 1, 1, 1, 1⟩] : List DayGroup).map (fun g => g.rows)).sum =
      (exMixedFacts.filter (fun r => r.day.isSome)).length :=
  ⟨(agg_views_partition exMixedFacts).2.2.1,
   (agg_views_partition exMixedFacts).2.2.2 _ (by with_unfolding_all decide)⟩

/-! ### Sorted-key helpers -/

theorem mem_sortStr {l : List String} {x : String} : x ∈ sortStr l ↔ x ∈ l := by
  simp [sortStr]

theorem nodup_sortStr (l : List String) (h : l.Nodup) : (sortStr l).Nodup :=
  ((List.perm_insertionSort _ l).nodup_iff).mpr h

/-- C1 (amended): for every username occurring in the housekeeping fact
table, the rotation artifact contains exactly one record for it, holding the
user's action count, distinct-room count, status changes, the uniqueness rate
`round((unique_rooms / total_actions), 3)` and the quality label classified
from that rounded rate — and the artifact carries no `room_randomness` score
and no `room_randomness_rank`: those columns do not exist in the output. -/
theorem uniqueness_by_user_reports (facts : List HKFactRow) (u : String)
    (hu : u ∈ facts.map (·.username)) :
    (uniqueness_by_user facts).countP (fun rc => decide (rc.username = u)) = 1 ∧
    (∀ rc ∈ uniqueness_by_user facts, rc.username = u →
      rc.total_actions = (facts.filter (fun r => decide (r.username = u))).length ∧
      rc.unique_rooms =
        (((facts.filter (fun r => decide (r.username = u))).map (·.roomNumber)).dedup).length ∧
      rc.status_changes = (facts.filter (fun r => decide (r.username = u))).countP (·.changed) ∧
      rc.room_uniqueness_rate =
        roundTo 3 ((rc.unique_rooms : ℚ) / (rc.total_actions : ℚ)) ∧
      rc.rotation_quality = classify_rotation rc.room_uniqueness_rate) ∧
    "room_randomness" ∉ rotation_csv_columns ∧
    "room_randomness_rank" ∉ rotation_csv_columns := by
  have hperm : List.Perm (uniqueness_by_user facts)
      ((sortStr ((facts.map (·.username)).dedup)).map (mkRotationRecord facts)) :=
    List.perm_insertionSort _ _
  refine ⟨?_, ?_, by decide, by decide⟩
  · rw [hperm.countP_eq]
    rw [List.countP_map]
    have hfun : ((fun rc : RotationRecord => decide (rc.username = u)) ∘ mkRotationRecord facts) =
        fun k => decide (k = u) := by
      funext k
      simp [mkRotationRecord]
    rw [hfun]
    have hcount : (sortStr ((facts.map (·.username)).dedup)).countP (fun k => decide (k = u)) =
        (sortStr ((facts.map (·.username)).dedup)).count u := by
      rw [List.count]
      apply List.countP_congr
      intro x _
      simp
    rw [hcount]
    exact List.count_eq_one_of_mem (nodup_sortStr _ (List.nodup_dedup _))
      (mem_sortStr.mpr (List.mem_dedup.mpr hu))
  · intro rc hrc hname
    rcases List.mem_map.mp (hperm.mem_iff.mp hrc) with ⟨k, _, hmk⟩
    have hku : k = u := by
      rw [← hname, ← hmk]
      exact rfl
    subst hku
    subst hmk
    exact ⟨rfl, rfl, rfl, rfl, rfl⟩

/-- C1 counterexample: on a concrete two-row fact table the rotation
artifact is a single record holding exactly the six columns of
`rotation_csv_columns`; no `room_randomness` value and no
`room_randomness_rank` is computed or reported anywhere. -/
theorem rotation_report_lacks_randomness :
    uniqueness_by_user exMixedFacts = [⟨"alice", 2, 2, 2, 1, "High (good rotation)"⟩] ∧
    rotation_csv_columns = ["Username", "total_actions", "unique_rooms", "status_changes",
      "room_uniqueness_rate", "rotation_quality"] ∧
    "room_randomness" ∉ rotation_csv_columns ∧
    "room_randomness_rank" ∉ rotation_csv_columns := by
  refine ⟨by with_unfolding_all decide, rfl, by decide, by decide⟩

/-- Witness for `uniqueness_by_user_reports` at a concrete table and user. -/
theorem uniqueness_by_user_reports_witness :
    ("alice" ∈ exMixedFacts.map (·.username)) ∧
    (uniqueness_by_user exMixedFacts).countP (fun rc => decide (rc.username = "alice")) = 1 :=
  ⟨by decide, (uniqueness_by_user_reports exMixedFacts "alice" (by decide)).1⟩

/-- C2 (code bug): the rotation-callout view renders no user at all.  On a
table with a 12-action user of very low uniqueness, `rotation_callouts`
returns a grid whose callouts card is the "No rotation data available"
message and whose table card lists nobody — because the worst-8 block sits
after an unconditional `return` and the recursive call receives the
nonexistent `"uniqueness_by_user"` section key — although the unreachable
block (and the spec, §4.4) would have flagged exactly `["alice"]`. -/
theorem rotation_callouts_renders_no_users :
    rotation_callouts exSection (some exRotationTable) =
      some (CalloutHtml.grid "username_room_rotation_scatter.png" CalloutHtml.noData []) ∧
    allUsernames (CalloutHtml.grid "username_room_rotation_scatter.png" CalloutHtml.noData []) = [] ∧
    (callout_worst8 exRotationTable).map (·.username) = ["alice"] := by
  refine ⟨by with_unfolding_all decide, by decide, by with_unfolding_all decide⟩

/-- Blank categorical cells normalize to the empty string. -/
theorem safe_str_of_blank (x : Option String) (h : Blank x) : safe_str x = "" := by
  rcases h with h | h
  · rw [h]
    rfl
  · cases x with
    | none => rfl
    | some s =>
      show pyStrip s = ""
      unfold pyStrip
      simp only [Option.getD_some] at h
      rw [h]

/-- C3 (amended): after normalization, a missing or whitespace-only value in
Housekeeper Before, Housekeeper After or Username equals the empty string
`""` (not the literal `"Unknown"`, which appears nowhere in the code). -/
theorem normalize_blank_categoricals (r : RawHKRow) :
    (Blank r.hkBefore → (normalizeHKRow r).hkBefore = "") ∧
    (Blank r.hkAfter → (normalizeHKRow r).hkAfter = "") ∧
    (Blank r.username → (normalizeHKRow r).username = "") :=
  ⟨fun h => safe_str_of_blank r.hkBefore h,
   fun h => safe_str_of_blank r.hkAfter h,
   fun h => safe_str_of_blank r.username h⟩

/-- C3 counterexample: on a row whose Housekeeper Before is missing,
Housekeeper After is whitespace and Username is empty, normalization yields
`""` in all three fields — not `"Unknown"`. -/
theorem blank_fields_not_unknown :
    (normalizeHKRow exBlankRawRow).hkBefore = "" ∧
    (normalizeHKRow exBlankRawRow).hkAfter = "" ∧
    (normalizeHKRow exBlankRawRow).username = "" ∧
    (normalizeHKRow exBlankRawRow).hkBefore ≠ "Unknown" := by
  refine ⟨rfl, by decide, by decide, by decide⟩

/-- Witness for `normalize_blank_categoricals` at a concrete blank row. -/
theorem normalize_blank_categoricals_witness :
    Blank exBlankRawRow.hkBefore ∧ (normalizeHKRow exBlankRawRow).hkBefore = "" :=
  ⟨by decide, (normalize_blank_categoricals exBlankRawRow).1 (by decide)⟩

/-- C5 (amended): the Date column is parsed with the primary format
`MM/DD/YYYY HH:MM` ONLY — `coerce_datetime` tries no fallback, so any value
the primary format rejects leaves `day` absent — and unparsable dates never
abort the run: `build_housekeeping_section` succeeds exactly when no required
column is missing, independent of the date contents. -/
theorem date_parse_primary_only (t : RawHKTable) :
    ((∃ sec, build_housekeeping_section t = Except.ok sec) ↔ hk_missing_cols t = []) ∧
    ∀ r ∈ t.rows, (normalizeHKRow r).day = parse_mdY_HM (safe_str r.date) := by
  constructor
  · by_cases h : hk_missing_cols t = []
    · simp [build_housekeeping_section, h]
    · simp [build_housekeeping_section, h]
  · exact fun r _ => rfl

/-- C5 counterexample: the ISO-formatted value `"2024-01-02 03:04"` fails the
primary format and the code leaves `day` absent, although a best-effort
fallback parse (which the spec prescribes) would have parsed it. -/
theorem iso_date_has_no_fallback :
    coerce_datetime "2024-01-02 03:04" = none ∧
    best_effort_parse "2024-01-02 03:04" = some ⟨2024, 1, 2⟩ ∧
    (normalizeHKRow exIsoDateRow).day = none := by
  refine ⟨by decide, by decide, by decide⟩

/-- Witness for `date_parse_primary_only` at a concrete valid table. -/
theorem date_parse_primary_only_witness :
    (∃ sec, build_housekeeping_section exGoodHKTable = Except.ok sec) ∧
    (normalizeHKRow exRawRow1).day = parse_mdY_HM (safe_str exRawRow1.date) :=
  ⟨(date_parse_primary_only exGoodHKTable).1.mpr (by decide),
   (date_parse_primary_only exGoodHKTable).2 exRawRow1 (by decide)⟩

/-- C6 (amended): in the room-usage by-room-type view, every group's
`avg_nights_per_room` equals the MEAN of `Number of Nights` over the group's
ROWS (total_nights / row count), rounded to 2 decimals; it equals
total_nights divided by the distinct-room count (the claim's formula) only
when no room number repeats within the group. -/
theorem usage_avg_is_row_mean (rowsU : List UsageRow) (g : UsageGroup)
    (hg : g ∈ usage_by_room_type rowsU) :
    g.rooms = (((rowsU.filter (fun r => decide (r.roomType = g.roomType))).map
      (·.roomNumber)).dedup).length ∧
    g.total_nights = ((rowsU.filter (fun r => decide (r.roomType = g.roomType))).map
      (·.nights)).sum ∧
    g.avg_nights_per_room = roundTo 2
      (((rowsU.filter (fun r => decide (r.roomType = g.roomType))).map (·.nights)).sum /
        ((rowsU.filter (fun r => decide (r.roomType = g.roomType))).length : ℚ)) ∧
    (((rowsU.filter (fun r => decide (r.roomType = g.roomType))).map (·.roomNumber)).Nodup →
      g.avg_nights_per_room = roundTo 2 (g.total_nights / (g.rooms : ℚ))) := by
  unfold usage_by_room_type at hg
  rw [List.mem_insertionSort] at hg
  rcases List.mem_map.mp hg with ⟨k, _, hk⟩
  subst hk
  refine ⟨rfl, rfl, rfl, fun hnd => ?_⟩
  show roundTo 2 (((rowsU.filter (fun r => decide (r.roomType = k))).map (·.nights)).sum /
      ((rowsU.filter (fun r => decide (r.roomType = k))).length : ℚ)) =
    roundTo 2 (((rowsU.filter (fun r => decide (r.roomType = k))).map (·.nights)).sum /
      (((((rowsU.filter (fun r => decide (r.roomType = k))).map (·.roomNumber)).dedup).length : ℕ) : ℚ))
  have hlen : (((rowsU.filter (fun r => decide (r.roomType = k))).map (·.roomNumber)).dedup).length =
      (rowsU.filter (fun r => decide (r.roomType = k))).length := by
    have hsame := List.dedup_eq_self.mpr hnd
    rw [hsame, List.length_map]
  rw [hlen]

/-- C6 counterexample: Suite rows (A,2), (A,1), (B,2) give total_nights = 5
over 2 distinct rooms but 3 rows; the code reports the row mean
round(5/3, 2) = 1.67, not the claim's round(total/rooms, 2) = 2.5. -/
theorem usage_avg_mismatch :
    usage_by_room_type exUsageRows = [⟨"Suite", 2, 5, 167/100⟩] ∧
    roundTo 2 ((5 : ℚ) / (2 : ℚ)) = 5/2 ∧
    (167/100 : ℚ) ≠ 5/2 := by
  refine ⟨by with_unfolding_all decide, by with_unfolding_all decide,
    by with_unfolding_all decide⟩

/-- Witness for `usage_avg_is_row_mean` at the concrete Suite table. -/
theorem usage_avg_is_row_mean_witness :
    ((⟨"Suite", 2, 5, 167/100⟩ : UsageGroup) ∈ usage_by_room_type exUsageRows) ∧
    (⟨"Suite", 2, 5, 167/100⟩ : UsageGroup).avg_nights_per_room = roundTo 2
      (((exUsageRows.filter (fun r => decide (r.roomType = "Suite"))).map (·.nights)).sum /
        ((exUsageRows.filter (fun r => decide (r.roomType = "Suite"))).length : ℚ)) :=
  ⟨by with_unfolding_all decide,
   (usage_avg_is_row_mean exUsageRows ⟨"Suite", 2, 5, 167/100⟩
     (by with_unfolding_all decide)).2.2.1⟩

/-- C7 (amended): Number of Nights is coerced to a NUMBER — a missing cell or
a value that fails to parse numerically becomes 0 without raising — but a
parsed value is kept as-is, so negative inputs stay negative and the result
is not guaranteed non-negative. -/
theorem coerce_nights_failure_to_zero (x : Option String) :
    (x = none → coerce_nights x = 0) ∧
    (∀ s, x = some s → parsePyNumber s = none → coerce_nights x = 0) ∧
    (∀ s q, x = some s → parsePyNumber s = some q → coerce_nights x = q) := by
  refine ⟨fun h => by rw [h]; rfl, fun s hs hp => ?_, fun s q hs hp => ?_⟩
  · rw [hs]
    show (parsePyNumber s).getD 0 = 0
    rw [hp]
    rfl
  · rw [hs]
    show (parsePyNumber s).getD 0 = q
    rw [hp]
    rfl

/-- C7 counterexample: the value `"-3"` parses to the negative number -3 and
is kept; the coerced Number of Nights is not non-negative. -/
theorem negative_nights_pass_through :
    coerce_nights (some "-3") = -3 ∧ ¬ (0 ≤ coerce_nights (some "-3")) := by
  refine ⟨by with_unfolding_all decide, by with_unfolding_all decide⟩

/-- Witness for `coerce_nights_failure_to_zero` at a non-numeric value. -/
theorem coerce_nights_failure_to_zero_witness :
    parsePyNumber "abc" = none ∧ coerce_nights (some "abc") = 0 :=
  ⟨by decide, (coerce_nights_failure_to_zero (some "abc")).2.1 "abc" rfl (by decide)⟩

/-- C8 (confirmed): for both input tables, if any required column is absent
the builder fails with a schema error whose payload is the full list of
missing required columns — every absent required column is in it, not just
the first — and the error is raised before any row is processed: it is the
same for every row list over the same header. -/
theorem schema_error_lists_all_missing (t : RawHKTable) (u : RawUsageTable)
    (c1 : String) (h1 : c1 ∈ hk_required_cols) (h2 : c1 ∉ t.cols)
    (c2 : String) (h3 : c2 ∈ usage_required_cols) (h4 : c2 ∉ u.cols) :
    build_housekeeping_section t = Except.error (hk_missing_cols t) ∧
    (∀ c ∈ hk_required_cols, c ∉ t.cols → c ∈ hk_missing_cols t) ∧
    (∀ rs, build_housekeeping_section ⟨t.cols, rs⟩ = Except.error (hk_missing_cols t)) ∧
    build_room_usage_section u = Except.error (usage_missing_cols u) ∧
    (∀ c ∈ usage_required_cols, c ∉ u.cols → c ∈ usage_missing_cols u) ∧
    (∀ rs, build_room_usage_section ⟨u.cols, rs⟩ = Except.error (usage_missing_cols u)) := by
  have hkne : hk_missing_cols t ≠ [] :=
    List.ne_nil_of_mem (List.mem_filter.mpr ⟨h1, decide_eq_true h2⟩)
  have hune : usage_missing_cols u ≠ [] :=
    List.ne_nil_of_mem (List.mem_filter.mpr ⟨h3, decide_eq_true h4⟩)
  refine ⟨?_, ?_, ?_, ?_, ?_, ?_⟩
  · simp [build_housekeeping_section, hkne]
  · exact fun c hc hnc => List.mem_filter.mpr ⟨hc, decide_eq_true hnc⟩
  · intro rs
    have hsame : hk_missing_cols ⟨t.cols, rs⟩ = hk_missing_cols t := rfl
    simp [build_housekeeping_section, hsame, hkne]
  · simp [build_room_usage_section, hune]
  · exact fun c hc hnc => List.mem_filter.mpr ⟨hc, decide_eq_true hnc⟩
  · intro rs
    have hsame : usage_missing_cols ⟨u.cols, rs⟩ = usage_missing_cols u := rfl
    simp [build_room_usage_section, hsame, hune]

/-- Witness for `schema_error_lists_all_missing` at tables missing required
columns. -/
theorem schema_error_witness :
    ("Date" ∈ hk_required_cols) ∧ ("Date" ∉ exBadHKTable.cols) ∧
    build_housekeeping_section exBadHKTable = Except.error (hk_missing_cols exBadHKTable) ∧
    build_room_usage_section exBadUsageTable = Except.error (usage_missing_cols exBadUsageTable) :=
  ⟨by decide, by decide,
   (schema_error_lists_all_missing exBadHKTable exBadUsageTable
     "Date" (by decide) (by decide) "Room Type" (by decide) (by decide)).1,
   (schema_error_lists_all_missing exBadHKTable exBadUsageTable
     "Date" (by decide) (by decide) "Room Type" (by decide) (by decide)).2.2.2.1⟩

/-- Sorting a duplicate-free string list ascending yields a strictly
increasing list. -/
theorem sortStr_sorted_lt (l : List String) (h : l.Nodup) :
    (sortStr l).Sorted (· < ·) := by
  have hs : (sortStr l).Sorted (fun a b : String => a ≤ b) :=
    List.sorted_insertionSort _ l
  exact List.Sorted.lt_of_le hs (nodup_sortStr l h)

/-- C9 (confirmed): the transition matrix is a full Before-by-After
cross-tabulation — its row labels are exactly the observed Before statuses and
its column labels the observed After statuses, both strictly ascending
lexicographically — and it is zero-filled: any (Before, After) combination of
the dense table with no occurrence in the facts has cell value 0. -/
theorem transition_matrix_full_crosstab (facts : List HKFactRow) :
    (transition_matrix facts).rowLabels.Sorted (· < ·) ∧
    (transition_matrix facts).colLabels.Sorted (· < ·) ∧
    (∀ r ∈ facts, r.hskBefore ∈ (transition_matrix facts).rowLabels ∧
      r.hskAfter ∈ (transition_matrix facts).colLabels) ∧
    (∀ b ∈ (transition_matrix facts).rowLabels, ∀ a ∈ (transition_matrix facts).colLabels,
      (¬ ∃ r ∈ facts, r.hskBefore = b ∧ r.hskAfter = a) →
        (transition_matrix facts).cell b a = 0) ∧
    transition_table facts = (transition_matrix facts).rowLabels.map
      (fun b => (b, (transition_matrix facts).colLabels.map
        (fun a => (transition_matrix facts).cell b a))) := by
  refine ⟨sortStr_sorted_lt _ (List.nodup_dedup _), sortStr_sorted_lt _ (List.nodup_dedup _),
    ?_, ?_, rfl⟩
  · intro r hr
    exact ⟨mem_sortStr.mpr (List.mem_dedup.mpr (List.mem_map_of_mem _ hr)),
      mem_sortStr.mpr (List.mem_dedup.mpr (List.mem_map_of_mem _ hr))⟩
  · intro b _ a _ hne
    show facts.countP (fun r => decide (r.hskBefore = b ∧ r.hskAfter = a)) = 0
    rw [List.countP_eq_zero]
    intro r hr
    simp only [decide_eq_true_eq]
    intro hpair
    exact hne ⟨r, hr, hpair⟩

/-- Witness for `transition_matrix_full_crosstab`: on a concrete table with
observed pairs (Dirty, Clean) and (Clean, Dirty), the labels are sorted and
the unobserved combination (Dirty, Dirty) reports 0. -/
theorem transition_matrix_witness :
    (transition_matrix exMixedFacts).rowLabels.Sorted (· < ·) ∧
    (transition_matrix exMixedFacts).cell "Dirty" "Dirty" = 0 :=
  ⟨(transition_matrix_full_crosstab exMixedFacts).1,
   (transition_matrix_full_crosstab exMixedFacts).2.2.2.1 "Dirty"
     (by with_unfolding_all decide) "Dirty" (by with_unfolding_all decide)
     (by with_unfolding_all decide)⟩

/-! ### `anonymize_name` totality analysis -/

theorem head_dropWhile_false (p : Char → Bool) (l : List Char) (c : Char) (rest : List Char)
    (h : l.dropWhile p = c :: rest) : p c = false := by
  induction l with
  | nil => simp [List.dropWhile] at h
  | cons a as ih =>
    rw [List.dropWhile_cons] at h
    by_cases hp : p a
    · rw [if_pos hp] at h
      exact ih h
    · rw [if_neg hp] at h
      injection h with h1 _
      subst h1
      exact Bool.eq_false_iff.mpr hp

/-- The last character of a stripped string is not whitespace. -/
theorem pyStripL_getLast_not_ws (cs : List Char) (c : Char)
    (h : (pyStripL cs).getLast? = some c) : pyIsSpace c = false := by
  unfold pyStripL dropTrailingWs at h
  rw [List.getLast?_reverse] at h
  cases hd : ((cs.dropWhile pyIsSpace).reverse.dropWhile pyIsSpace) with
  | nil => rw [hd] at h; cases h
  | cons x xs =>
    rw [hd] at h
    simp only [List.head?_cons, Option.some.injEq] at h
    subst h
    exact head_dropWhile_false pyIsSpace _ _ xs hd

/-- The first character of a stripped string is not whitespace. -/
theorem pyStripL_head_not_ws (cs : List Char) (c : Char) (rest : List Char)
    (h : pyStripL cs = c :: rest) : pyIsSpace c = false := by
  unfold pyStripL dropTrailingWs at h
  have h2 : (cs.dropWhile pyIsSpace).reverse.dropWhile pyIsSpace = (c :: rest).reverse := by
    rw [← h, List.reverse_reverse]
  have hsuf : (cs.dropWhile pyIsSpace).reverse.dropWhile pyIsSpace <:+
      (cs.dropWhile pyIsSpace).reverse := List.dropWhile_suffix pyIsSpace
  rw [h2] at hsuf
  have hpre : (c :: rest) <+: cs.dropWhile pyIsSpace := by
    rwa [List.reverse_suffix] at hsuf
  rcases hpre with ⟨t, ht⟩
  exact head_dropWhile_false pyIsSpace cs c (rest ++ t) (by rw [← ht]; rfl)

theorem collapseWs_cons_not_ws (c : Char) (rest : List Char) (h : pyIsSpace c = false) :
    collapseWs (c :: rest) = c :: collapseWs rest := by
  simp [collapseWs, collapseWsAux, h]

/-- Skipping a whitespace run in-state equals restarting after dropping it. -/
theorem collapseWsAux_true_eq (rest : List Char) :
    collapseWsAux true rest = collapseWsAux false (rest.dropWhile pyIsSpace) := by
  induction rest with
  | nil => rfl
  | cons c rs ih =>
    by_cases h : pyIsSpace c
    · simp [collapseWsAux, h, List.dropWhile_cons, ih]
    · simp [collapseWsAux, h, List.dropWhile_cons]

theorem collapseWs_cons_ws (c : Char) (rest : List Char) (h : pyIsSpace c = true) :
    collapseWs (c :: rest) = ' ' :: collapseWs (rest.dropWhile pyIsSpace) := by
  simp [collapseWs, collapseWsAux, h, collapseWsAux_true_eq]

/-- Collapsing whitespace preserves "the last character is not whitespace"
(and nonemptiness). -/
theorem collapseWs_getLast_not_ws :
    ∀ (n : ℕ) (cs : List Char), cs.length ≤ n → cs ≠ [] →
      (∀ e, cs.getLast? = some e → pyIsSpace e = false) →
      ∃ e, (collapseWs cs).getLast? = some e ∧ pyIsSpace e = false := by
  intro n
  induction n with
  | zero =>
    intro cs hlen hne _
    cases cs with
    | nil => exact absurd rfl hne
    | cons c rest => simp at hlen
  | succ n ih =>
    intro cs hlen hne hlast
    obtain ⟨c, rest, rfl⟩ := List.exists_cons_of_ne_nil hne
    by_cases hrest : rest = []
    · subst hrest
      have hc : pyIsSpace c = false := hlast c (by simp)
      refine ⟨c, ?_, hc⟩
      rw [collapseWs_cons_not_ws c [] hc]
      simp [collapseWs, collapseWsAux]
    · have hlast_rest : ∀ e, rest.getLast? = some e → pyIsSpace e = false := by
        intro e he
        apply hlast
        obtain ⟨r, rs, rfl⟩ := List.exists_cons_of_ne_nil hrest
        rw [List.getLast?_cons_cons]
        exact he
      have hlenr : rest.length ≤ n := by
        simp only [List.length_cons] at hlen
        omega
      by_cases hc : pyIsSpace c
      · -- the run of whitespace is replaced by a single space; the tail after
        -- the run still ends in the same non-whitespace character
        have hne2 : rest.dropWhile pyIsSpace ≠ [] := by
          intro hnil
          have hall := List.dropWhile_eq_nil_iff.mp hnil
          obtain ⟨e, he⟩ := Option.isSome_iff_exists.mp (List.getLast?_isSome.mpr hrest)
          have hmem := List.mem_of_getLast?_eq_some he
          have := hall e hmem
          rw [hlast_rest e he] at this
          cases this
        have hlast_drop : ∀ e, (rest.dropWhile pyIsSpace).getLast? = some e →
            pyIsSpace e = false := by
          intro e he
          apply hlast_rest e
          have hsufr : rest.dropWhile pyIsSpace <:+ rest := List.dropWhile_suffix pyIsSpace
          rcases hsufr with ⟨t, ht⟩
          rw [← ht, List.getLast?_append, he]
          rfl
        have hlend : (rest.dropWhile pyIsSpace).length ≤ n :=
          le_trans ((List.dropWhile_suffix pyIsSpace).sublist.length_le) hlenr
        obtain ⟨e, he1, he2⟩ := ih (rest.dropWhile pyIsSpace) hlend hne2 hlast_drop
        refine ⟨e, ?_, he2⟩
        rw [collapseWs_cons_ws c rest hc]
        have hcne : collapseWs (rest.dropWhile pyIsSpace) ≠ [] := by
          intro hnil
          rw [hnil] at he1
          cases he1
        obtain ⟨r2, rs2, hr2⟩ := List.exists_cons_of_ne_nil hcne
        rw [hr2, List.getLast?_cons_cons, ← hr2]
        exact he1
      · have hcf : pyIsSpace c = false := Bool.eq_false_iff.mpr hc
        obtain ⟨e, he1, he2⟩ := ih rest hlenr hrest hlast_rest
        refine ⟨e, ?_, he2⟩
        rw [collapseWs_cons_not_ws c rest hcf]
        have hcne : collapseWs rest ≠ [] := by
          intro hnil
          rw [hnil] at he1
          cases he1
        obtain ⟨r2, rs2, hr2⟩ := List.exists_cons_of_ne_nil hcne
        rw [hr2, List.getLast?_cons_cons, ← hr2]
        exact he1

theorem splitOnChar_ne_nil (sep : Char) (cs : List Char) : splitOnChar sep cs ≠ [] := by
  induction cs with
  | nil => simp [splitOnChar]
  | cons c rest ih =>
    by_cases h : c = sep
    · simp [splitOnChar, h]
    · simp only [splitOnChar, if_neg h]
      cases hs : splitOnChar sep rest with
      | nil => simp
      | cons p ps => simp

/-- If a nonempty string does not end in the separator, the last fragment of
its split is nonempty. -/
theorem splitOnChar_getLast_ne_nil (sep : Char) :
    ∀ (cs : List Char), cs ≠ [] → (∀ e, cs.getLast? = some e → e ≠ sep) →
      ∀ lp, (splitOnChar sep cs).getLast? = some lp → lp ≠ [] := by
  intro cs
  induction cs with
  | nil =>
    intro h
    exact absurd rfl h
  | cons c rest ih =>
    intro _ hlast lp hlp
    by_cases hrest : rest = []
    · subst hrest
      have hc : c ≠ sep := hlast c (by simp)
      have heq : splitOnChar sep [c] = [[c]] := by
        simp [splitOnChar, hc]
      rw [heq] at hlp
      simp only [List.getLast?_singleton, Option.some.injEq] at hlp
      subst hlp
      simp
    · have hlast_rest : ∀ e, rest.getLast? = some e → e ≠ sep := by
        intro e he
        apply hlast
        obtain ⟨r, rs, rfl⟩ := List.exists_cons_of_ne_nil hrest
        rw [List.getLast?_cons_cons]
        exact he
      by_cases hc : c = sep
      · have heq : splitOnChar sep (c :: rest) = [] :: splitOnChar sep rest := by
          simp [splitOnChar, hc]
        rw [heq] at hlp
        obtain ⟨q, qs, hq⟩ := List.exists_cons_of_ne_nil (splitOnChar_ne_nil sep rest)
        rw [hq, List.getLast?_cons_cons] at hlp
        exact ih hrest hlast_rest lp (by rw [hq]; exact hlp)
      · obtain ⟨p, ps, hp⟩ := List.exists_cons_of_ne_nil (splitOnChar_ne_nil sep rest)
        have heq : splitOnChar sep (c :: rest) = (c :: p) :: ps := by
          simp only [splitOnChar, if_neg hc, hp]
        rw [heq] at hlp
        cases ps with
        | nil =>
          simp only [List.getLast?_singleton, Option.some.injEq] at hlp
          subst hlp
          simp
        | cons q qs =>
          rw [List.getLast?_cons_cons] at hlp
          apply ih hrest hlast_rest lp
          rw [hp, List.getLast?_cons_cons]
          exact hlp

/-- The final formatting step cannot raise when its input is nonempty and
does not end in a space. -/
theorem anonFinish_isSome (s2 : List Char) (hne : s2 ≠ [])
    (hlast : ∀ e, s2.getLast? = some e → e ≠ ' ') :
    (anonFinish s2).isSome := by
  unfold anonFinish
  obtain ⟨p, ps, hp⟩ := List.exists_cons_of_ne_nil (splitOnChar_ne_nil ' ' s2)
  rw [hp]
  cases ps with
  | nil => simp
  | cons q qs =>
    obtain ⟨lp, hlp⟩ := Option.isSome_iff_exists.mp
      (List.getLast?_isSome.mpr (List.cons_ne_nil q qs))
    have hlp2 : (splitOnChar ' ' s2).getLast? = some lp := by
      rw [hp, List.getLast?_cons_cons]
      exact hlp
    have hlpne : lp ≠ [] := splitOnChar_getLast_ne_nil ' ' s2 hne hlast lp hlp2
    obtain ⟨c0, cs0, rfl⟩ := List.exists_cons_of_ne_nil hlpne
    simp [hlp]

/-- In the no-comma-swap paths the formatted string is the collapsed strip of
the input, which is nonempty and does not end in whitespace, so formatting
succeeds. -/
theorem anonymize_no_swap_isSome (str0 : String) (h0 : pyStripL str0.toList ≠ []) :
    (anonFinish (collapseWs (pyStripL str0.toList))).isSome := by
  have hlast0 : ∀ e, (pyStripL str0.toList).getLast? = some e → pyIsSpace e = false :=
    fun e he => pyStripL_getLast_not_ws _ e he
  obtain ⟨e, he1, he2⟩ := collapseWs_getLast_not_ws (pyStripL str0.toList).length
    (pyStripL str0.toList) le_rfl h0 hlast0
  apply anonFinish_isSome
  · intro hnil
    rw [hnil] at he1
    cases he1
  · intro e2 he2'
    rw [he1] at he2'
    injection he2' with h3
    subst h3
    intro hsp
    rw [hsp] at he2
    simp [pyIsSpace] at he2

/-- C10 (amended): `anonymize_name` returns a string without raising on every
string input EXCEPT those whose stripped, whitespace-collapsed form has a
comma with only blank content before its first occurrence and non-blank
content after it — on those (e.g. `",John"`) the reordered string ends in a
space, its last space-split token is empty, and `parts[-1][0]` raises
`IndexError`. -/
theorem anonymize_name_total_unless (s : String) (h : ¬ anonFailCond s) :
    (anonymize_name (some s)).isSome := by
  show (anonymize_core s).isSome
  unfold anonymize_core
  by_cases h0 : pyStripL s.toList = []
  · rw [if_pos h0]
    rfl
  · rw [if_neg h0]
    by_cases hcomma : (collapseWs (pyStripL s.toList)).contains ','
    · rw [if_pos hcomma]
      by_cases hp1 :
          pyStripL (((collapseWs (pyStripL s.toList)).dropWhile (fun c => c != ',')).tail) ≠ []
      · rw [if_pos hp1]
        have hp0 :
            pyStripL ((collapseWs (pyStripL s.toList)).takeWhile (fun c => c != ',')) ≠ [] := by
          intro hz
          exact h ⟨hcomma, hp1, hz⟩
        obtain ⟨c0, cs0, hc0⟩ := List.exists_cons_of_ne_nil hp0
        apply anonFinish_isSome
        · simp
        · intro e he
          rw [hc0, List.getLast?_append, List.getLast?_cons_cons] at he
          obtain ⟨lc, hlc⟩ := Option.isSome_iff_exists.mp
            (List.getLast?_isSome.mpr (List.cons_ne_nil c0 cs0))
          rw [hlc] at he
          rw [Option.or_some] at he
          injection he with h3
          subst h3
          have hnw := pyStripL_getLast_not_ws
            ((collapseWs (pyStripL s.toList)).takeWhile (fun c => c != ',')) lc
            (by rw [hc0]; exact hlc)
          intro hsp
          rw [hsp] at hnw
          simp [pyIsSpace] at hnw
      · rw [if_neg hp1]
        exact anonymize_no_swap_isSome s h0
    · rw [if_neg hcomma]
      exact anonymize_no_swap_isSome s h0

/-- C10 counterexample: on the input `",John"` the function raises
`IndexError` (modelled as `none`): the claim that every string input returns
without raising is false. -/
theorem anonymize_raises_on_leading_comma :
    anonymize_name (some ",John") = none ∧ anonFailCond ",John" := by
  refine ⟨by decide, by decide⟩

/-- Witness for `anonymize_name_total_unless` at a normal "Last, First"
input. -/
theorem anonymize_name_total_unless_witness :
    ¬ anonFailCond "Smith, John" ∧ (anonymize_name (some "Smith, John")).isSome :=
  ⟨by decide, anonymize_name_total_unless "Smith, John" (by decide)⟩
